import Mathlib

/-!
Verification of the deterministic-keypair caching subsystem and the
sign/verify wrappers of `bastille_crypto` (src/native/bastille_crypto/src/lib.rs).

Byte strings are modelled as `List Nat`.  The filesystem state visible to the
cache is a record `CacheFs` (directory existence plus a partial map from raw
cache-key bytes to file contents; the hex filename encoding is injective, so
keying files by the raw cache-key bytes is equivalent).  The blake3 hash is
kept abstract: the derivation functions are parameterized over a hash
function `H`, and the external keypair generator's output is passed in as a
parameter `gen` together with a `generated` flag recording whether it was
consumed.  Filesystem write failures (directory creation, file write) are
injected through `IoOutcome`.
-/

namespace BastilleCrypto

/-- Little-endian 4-byte encoding of `(n as u32)`, as produced by
`(pk_bytes.len() as u32).to_le_bytes()` in `save_persistent_cache`. -/
def encodeU32LE (n : Nat) : List Nat :=
  [n % 256, n / 256 % 256, n / 65536 % 256, n / 16777216 % 256]

/-- Little-endian decoding of the first four bytes of a list, as performed by
`u32::from_le_bytes([data[0], data[1], data[2], data[3]])` in
`load_persistent_cache` (the source only evaluates it after checking
`data.len() >= 4`; shorter lists yield 0 here). -/
def decodeU32LE (l : List Nat) : Nat :=
  match l with
  | b0 :: b1 :: b2 :: b3 :: _ => b0 + 256 * b1 + 65536 * b2 + 16777216 * b3
  | _ => 0

/-- On-disk record layout `[pk_len:4][pk_data][sk_data]` built by
`save_persistent_cache`. -/
def encodeRecord (pk sk : List Nat) : List Nat :=
  encodeU32LE pk.length ++ pk ++ sk

/-- Parsing of a cache file's bytes, as in the body of
`load_persistent_cache`: require `data.len() >= 4`, read the length prefix,
require `data.len() >= 4 + pk_len`, then split into
`data[4..4+pk_len]` and `data[4+pk_len..]`. -/
def parseRecord (data : List Nat) : Option (List Nat × List Nat) :=
  if 4 ≤ data.length then
    if 4 + decodeU32LE data ≤ data.length then
      some ((data.drop 4).take (decodeU32LE data), data.drop (4 + decodeU32LE data))
    else
      none
  else
    none

/-- Filesystem state visible to the persistent key cache: whether the cache
directory exists, and the contents of each cache file, keyed by the raw
cache-key bytes. -/
structure CacheFs where
  dirExists : Bool
  files : List Nat → Option (List Nat)

/-- Process state: the global in-memory `DETERMINISTIC_CACHE` map declared at
the top of lib.rs, plus the filesystem. -/
structure CryptoState where
  memCache : List Nat → Option (List Nat × List Nat)
  fs : CacheFs

/-- Embedding of `load_persistent_cache`: `None` when the cache directory does
not exist, when the file read fails, or when the contents fail the length
guards; otherwise the parsed record. -/
def load_persistent_cache (fs : CacheFs) (cache_key : List Nat) :
    Option (List Nat × List Nat) :=
  if fs.dirExists then
    match fs.files cache_key with
    | some data => parseRecord data
    | none => none
  else
    none

/-- Outcome of the filesystem operations attempted by
`save_persistent_cache`: directory creation and file write each may fail. -/
inductive IoOutcome
  | ok
  | dirFail
  | writeFail
deriving DecidableEq

/-- Filesystem state after a successful `save_persistent_cache`: the cache
directory exists and the record file is created or overwritten. -/
def saveFs (fs : CacheFs) (cache_key pk_bytes sk_bytes : List Nat) : CacheFs :=
  ⟨true, fun k => if k = cache_key then some (encodeRecord pk_bytes sk_bytes)
                  else fs.files k⟩

/-- Embedding of `save_persistent_cache`: fails (with the corresponding error
string) when directory creation or the file write fails, otherwise writes
`[pk_len:4][pk_data][sk_data]` and returns the updated filesystem. -/
def save_persistent_cache (io : IoOutcome) (fs : CacheFs)
    (cache_key pk_bytes sk_bytes : List Nat) : Except String CacheFs :=
  match io with
  | .dirFail => .error "Failed to create cache directory"
  | .writeFail => .error "Failed to write crypto cache"
  | .ok => .ok (saveFs fs cache_key pk_bytes sk_bytes)

/-- Errors surfaced to the host, mirroring `rustler::Error`: `badArg` for
`rustler::Error::BadArg`, `term` for `rustler::Error::Term(message)`. -/
inductive NifError
  | badArg
  | term (msg : String)
deriving DecidableEq

/-- Closed enumeration of the supported algorithms. -/
inductive Alg
  | dilithium2
  | falcon512
  | sphincsplus
deriving DecidableEq

/-- Domain tag bytes prepended to the seed by each `*_keypair_from_seed`
function: the ASCII bytes of `"dilithium2_v1:"`, `"falcon512_v1:"` and
`"sphincsplus_v1:"` respectively. -/
def domainTag : Alg → List Nat
  | .dilithium2 => [100, 105, 108, 105, 116, 104, 105, 117, 109, 50, 95, 118, 49, 58]
  | .falcon512 => [102, 97, 108, 99, 111, 110, 53, 49, 50, 95, 118, 49, 58]
  | .sphincsplus => [115, 112, 104, 105, 110, 99, 115, 112, 108, 117, 115, 95, 118, 49, 58]

/-- Input to the cache-key hash: `domain_tag || seed`, as built at the top of
each `*_keypair_from_seed` function. -/
def cacheKeyInput (a : Alg) (seed : List Nat) : List Nat :=
  domainTag a ++ seed

/-- Result of a `*_keypair_from_seed` call: the returned keypair, the state
after the call, and an instrumentation flag recording whether the underlying
keypair generator (`dilithium2::keypair()` etc.) was invoked. -/
structure DeriveResult where
  keys : List Nat × List Nat
  st : CryptoState
  generated : Bool

/-- Embedding of `dilithium2_keypair_from_seed` / `falcon512_keypair_from_seed`
/ `sphincsplus_keypair_from_seed` (identical modulo the domain tag, selected
by `a`): hash `domain_tag || seed` with `H` (blake3 in the source, abstract
here), consult the persistent cache, return the record verbatim on a hit; on
a miss take the generator's fresh keypair `gen`, save it (propagating a save
failure as `rustler::Error::Term("Critical cache failure: ...")`), and return
it.  The in-memory `DETERMINISTIC_CACHE` map in `st.memCache` is carried
through untouched, exactly as in the source, which never reads or writes it. -/
def keypair_from_seed (H : List Nat → List Nat) (io : IoOutcome)
    (gen : List Nat × List Nat) (a : Alg) (seed : List Nat)
    (st : CryptoState) : Except NifError DeriveResult :=
  match load_persistent_cache st.fs (H (cacheKeyInput a seed)) with
  | some r => .ok ⟨r, st, false⟩
  | none =>
    match save_persistent_cache io st.fs (H (cacheKeyInput a seed)) gen.1 gen.2 with
    | .error e => .error (.term ("Critical cache failure: " ++ e))
    | .ok fs' => .ok ⟨gen, ⟨st.memCache, fs'⟩, true⟩

/-- Embedding of the three `*_verify` NIFs (identical modulo primitives):
parse the signature and public key with the algorithm's parsers; if both
parse, defer to the algorithm's detached verification, otherwise return
`false`.  The external parsers and verifier are abstract parameters. -/
def verifyNif {Sig Pk : Type} (parseSig : List Nat → Option Sig)
    (parsePk : List Nat → Option Pk)
    (verifyDetached : Sig → List Nat → Pk → Bool)
    (signature message public_key : List Nat) : Bool :=
  match parseSig signature, parsePk public_key with
  | some s, some p => verifyDetached s message p
  | _, _ => false

/-- Embedding of the three `*_sign` NIFs (identical modulo primitives): parse
the secret key with the algorithm's parser; on success return the detached
signature, on failure return `rustler::Error::BadArg`. -/
def signNif {Sk Sig : Type} (parseSk : List Nat → Option Sk)
    (detachedSign : List Nat → Sk → Sig)
    (message private_key : List Nat) : Except NifError Sig :=
  match parseSk private_key with
  | some k => .ok (detachedSign message k)
  | none => .error .badArg

/-- Bounds-checked range slice `data[i..j]`, `none` modelling a Rust panic. -/
def sliceRange (data : List Nat) (i j : Nat) : Option (List Nat) :=
  if i ≤ j ∧ j ≤ data.length then some ((data.drop i).take (j - i)) else none

/-- Bounds-checked suffix slice `data[i..]`, `none` modelling a Rust panic. -/
def sliceFrom (data : List Nat) (i : Nat) : Option (List Nat) :=
  if i ≤ data.length then some (data.drop i) else none

/-- Panic-explicit version of the `load_persistent_cache` parsing body: every
byte index and slice is bounds-checked, with outer `none` marking a panic.
Used to show the length guards make the parser total. -/
def parseRecordChecked (data : List Nat) : Option (Option (List Nat × List Nat)) :=
  if 4 ≤ data.length then
    match data.get? 0, data.get? 1, data.get? 2, data.get? 3 with
    | some b0, some b1, some b2, some b3 =>
      let pk_len := b0 + 256 * b1 + 65536 * b2 + 16777216 * b3
      if 4 + pk_len ≤ data.length then
        match sliceRange data 4 (4 + pk_len), sliceFrom data (4 + pk_len) with
        | some pk_data, some sk_data => some (some (pk_data, sk_data))
        | _, _ => none
      else
        some none
    | _, _, _, _ => none
  else
    some none

/-- Empty filesystem: no cache directory, no files. -/
def fsEmpty : CacheFs := ⟨false, fun _ => none⟩

/-- Fresh process state: empty in-memory map, empty filesystem. -/
def stEmpty : CryptoState := ⟨fun _ => none, fsEmpty⟩

-- Helper lemmas

theorem decodeU32LE_encodeU32LE (n : Nat) (l : List Nat) :
    decodeU32LE (encodeU32LE n ++ l) = n % 4294967296 := by
  simp only [encodeU32LE, decodeU32LE, List.cons_append, List.nil_append]
  omega

theorem encodeRecord_length (pk sk : List Nat) :
    (encodeRecord pk sk).length = 4 + pk.length + sk.length := by
  simp [encodeRecord, encodeU32LE]
  omega


theorem parseRecord_encodeRecord (pk sk : List Nat)
    (h : pk.length < 4294967296) :
    parseRecord (encodeRecord pk sk) = some (pk, sk) := by
  have hlen : (encodeRecord pk sk).length = 4 + pk.length + sk.length :=
    encodeRecord_length pk sk
  have hdec : decodeU32LE (encodeRecord pk sk) = pk.length := by
    have := decodeU32LE_encodeU32LE pk.length (pk ++ sk)
    simpa [encodeRecord, Nat.mod_eq_of_lt h] using this
  have hdrop4 : (encodeRecord pk sk).drop 4 = pk ++ sk := by
    simp [encodeRecord, encodeU32LE]
  simp only [parseRecord, hlen, hdec, hdrop4]
  rw [if_pos (by omega), if_pos (by omega)]
  have htake : (pk ++ sk).take pk.length = pk := List.take_left pk sk
  have hdropAll : (encodeRecord pk sk).drop (4 + pk.length) = sk := by
    have : (encodeRecord pk sk).drop (4 + pk.length)
        = ((encodeRecord pk sk).drop 4).drop pk.length := by
      rw [List.drop_drop]
    rw [this, hdrop4, List.drop_left]
  rw [htake, hdropAll]

theorem keypair_from_seed_hit (H : List Nat → List Nat) (io : IoOutcome)
    (gen : List Nat × List Nat) (a : Alg) (seed : List Nat) (st : CryptoState)
    (p : List Nat × List Nat)
    (h : load_persistent_cache st.fs (H (cacheKeyInput a seed)) = some p) :
    keypair_from_seed H io gen a seed st = .ok ⟨p, st, false⟩ := by
  unfold keypair_from_seed
  rw [h]

theorem keypair_from_seed_miss_ok (H : List Nat → List Nat)
    (gen : List Nat × List Nat) (a : Alg) (seed : List Nat) (st : CryptoState)
    (h : load_persistent_cache st.fs (H (cacheKeyInput a seed)) = none) :
    keypair_from_seed H .ok gen a seed st =
      .ok ⟨gen, ⟨st.memCache, saveFs st.fs (H (cacheKeyInput a seed)) gen.1 gen.2⟩,
           true⟩ := by
  unfold keypair_from_seed
  rw [h]
  rfl

theorem keypair_from_seed_dirFail (H : List Nat → List Nat)
    (gen : List Nat × List Nat) (a : Alg) (seed : List Nat) (st : CryptoState)
    (h : load_persistent_cache st.fs (H (cacheKeyInput a seed)) = none) :
    keypair_from_seed H .dirFail gen a seed st =
      .error (.term ("Critical cache failure: " ++ "Failed to create cache directory")) := by
  unfold keypair_from_seed
  rw [h]
  rfl

theorem keypair_from_seed_writeFail (H : List Nat → List Nat)
    (gen : List Nat × List Nat) (a : Alg) (seed : List Nat) (st : CryptoState)
    (h : load_persistent_cache st.fs (H (cacheKeyInput a seed)) = none) :
    keypair_from_seed H .writeFail gen a seed st =
      .error (.term ("Critical cache failure: " ++ "Failed to write crypto cache")) := by
  unfold keypair_from_seed
  rw [h]
  rfl

theorem load_saveFs (fs : CacheFs) (cache_key pk sk : List Nat)
    (h : pk.length < 4294967296) :
    load_persistent_cache (saveFs fs cache_key pk sk) cache_key = some (pk, sk) := by
  unfold load_persistent_cache saveFs
  simp [parseRecord_encodeRecord pk sk h]

/-- C2 counterexample: for a public key of length 2^32 the first 4 bytes of
the stored record decode to 0, not to the public-key length, because
`save_persistent_cache` casts the length to `u32` before encoding it. -/
theorem save_format_counterexample :
    decodeU32LE (encodeRecord (List.replicate 4294967296 (0 : Nat)) [])
      ≠ (List.replicate 4294967296 (0 : Nat)).length := by
  intro h
  rw [encodeRecord, List.append_assoc, decodeU32LE_encodeU32LE,
    List.length_replicate] at h
  norm_num at h

/-- C2 (amended): for every public key of length L1 < 2^32 and secret key of
length L2, the byte string written by `save_persistent_cache` is exactly
`4 + L1 + L2` bytes long, its first 4 bytes are the little-endian `u32`
encoding of L1, and they decode back to L1.  (The bound L1 < 2^32 is forced by
the `as u32` cast; without it the prefix stores L1 mod 2^32.) -/
theorem save_format_spec (pk sk : List Nat) (h : pk.length < 4294967296) :
    (encodeRecord pk sk).length = 4 + pk.length + sk.length
    ∧ (encodeRecord pk sk).take 4 = encodeU32LE pk.length
    ∧ decodeU32LE (encodeRecord pk sk) = pk.length := by
  refine ⟨encodeRecord_length pk sk, ?_, ?_⟩
  · rw [encodeRecord, List.append_assoc,
      List.take_left' (show (encodeU32LE pk.length).length = 4 by rfl)]
  · have := decodeU32LE_encodeU32LE pk.length (pk ++ sk)
    rw [encodeRecord, List.append_assoc, this, Nat.mod_eq_of_lt h]

/-- Witness for C2's amended theorem at pk = [1,2,3], sk = [4,5]. -/
theorem save_format_spec_witness :
    (encodeRecord [1, 2, 3] [4, 5]).length
        = 4 + ([1, 2, 3] : List Nat).length + ([4, 5] : List Nat).length
    ∧ (encodeRecord [1, 2, 3] [4, 5]).take 4 = encodeU32LE ([1, 2, 3] : List Nat).length
    ∧ decodeU32LE (encodeRecord [1, 2, 3] [4, 5]) = ([1, 2, 3] : List Nat).length :=
  save_format_spec [1, 2, 3] [4, 5] (by decide)

/-- C4: for every seed and every pair of distinct algorithms the cache-key
hash inputs `domain_tag || seed` differ, and no domain tag extends to another
algorithm's domain tag (the tags are mutually incomparable under
prefix extension), so distinct algorithms never share a cache-key hash
input even on identical seeds. -/
theorem cross_algorithm_distinct (a b : Alg) (seed rest : List Nat) (hab : a ≠ b) :
    cacheKeyInput a seed ≠ cacheKeyInput b seed
    ∧ domainTag a ++ rest ≠ domainTag b := by
  cases a <;> cases b <;> simp_all [cacheKeyInput, domainTag]

/-- Witness for C4 at algorithms dilithium2 and falcon512 with seed [0]. -/
theorem cross_algorithm_distinct_witness :
    cacheKeyInput .dilithium2 [0] ≠ cacheKeyInput .falcon512 [0]
    ∧ domainTag .dilithium2 ++ [0] ≠ domainTag .falcon512 :=
  cross_algorithm_distinct .dilithium2 .falcon512 [0] [0] (by decide)

/-- C5: the `*_verify` NIFs are total Boolean functions; whenever the
signature or the public key fails to parse for the algorithm, the result is
`false` (never an error). -/
theorem verify_false_on_malformed {Sig Pk : Type} (parseSig : List Nat → Option Sig)
    (parsePk : List Nat → Option Pk) (verifyDetached : Sig → List Nat → Pk → Bool)
    (signature message public_key : List Nat)
    (h : parseSig signature = none ∨ parsePk public_key = none) :
    verifyNif parseSig parsePk verifyDetached signature message public_key = false := by
  unfold verifyNif
  rcases h with h | h
  · rw [h]
  · rw [h]
    cases parseSig signature <;> rfl

/-- Witness for C5 with a parser that rejects every signature. -/
theorem verify_false_on_malformed_witness :
    verifyNif (fun _ => (none : Option Unit)) (fun l => some l)
      (fun _ _ _ => true) [1] [2] [3] = false :=
  verify_false_on_malformed (fun _ => (none : Option Unit)) (fun l => some l)
    (fun _ _ _ => true) [1] [2] [3] (Or.inl rfl)

/-- C6: the `*_sign` NIFs return the invalid-key-encoding error
(`rustler::Error::BadArg`) exactly when the secret-key bytes do not parse for
the algorithm, and otherwise return the detached signature produced by the
algorithm's signer. -/
theorem sign_badarg_iff_invalid_key {Sk Sig : Type} (parseSk : List Nat → Option Sk)
    (detachedSign : List Nat → Sk → Sig) (message private_key : List Nat) :
    (signNif parseSk detachedSign message private_key = .error .badArg
        ↔ parseSk private_key = none)
    ∧ (∀ k, parseSk private_key = some k →
        signNif parseSk detachedSign message private_key
          = .ok (detachedSign message k)) := by
  constructor
  · constructor
    · intro h
      cases hp : parseSk private_key with
      | none => rfl
      | some k =>
        simp only [signNif, hp] at h
        exact Except.noConfusion h
    · intro h
      simp only [signNif, h]
  · intro k hk
    simp only [signNif, hk]

/-- Parser used to witness C6: accepts exactly the byte strings of length 2. -/
def demoParseSk (l : List Nat) : Option (List Nat) :=
  if l.length = 2 then some l else none

/-- Witness for C6: a secret key accepted by the parser yields the detached
signature. -/
theorem sign_badarg_iff_invalid_key_witness :
    signNif demoParseSk (fun m k => m ++ k) [1] [2, 3] = .ok ([1] ++ [2, 3]) :=
  (sign_badarg_iff_invalid_key demoParseSk (fun m k => m ++ k) [1] [2, 3]).2
    [2, 3] (by decide)

/-- C1: for every hash function, generator output with pk shorter than 2^32
(all three algorithms have fixed pk lengths far below that), algorithm, seed
and starting state, if a derivation call succeeds with result `r`, then a
second call against the resulting cache state returns the byte-identical
keypair, leaves the state unchanged, and does not invoke the keypair
generator (`generated = false`); moreover the stored record looked up at the
cache key is exactly the returned keypair (store followed by lookup
round-trips). -/
theorem derive_stable_cache (H : List Nat → List Nat) (io : IoOutcome)
    (gen : List Nat × List Nat) (a : Alg) (seed : List Nat) (st : CryptoState)
    (r : DeriveResult) (hlen : gen.1.length < 4294967296)
    (h1 : keypair_from_seed H io gen a seed st = .ok r) :
    keypair_from_seed H io gen a seed r.st = .ok ⟨r.keys, r.st, false⟩
    ∧ load_persistent_cache r.st.fs (H (cacheKeyInput a seed)) = some r.keys := by
  cases hload : load_persistent_cache st.fs (H (cacheKeyInput a seed)) with
  | some p =>
    rw [keypair_from_seed_hit H io gen a seed st p hload] at h1
    injection h1 with h1
    subst h1
    exact ⟨keypair_from_seed_hit H io gen a seed st p hload, hload⟩
  | none =>
    cases io with
    | ok =>
      rw [keypair_from_seed_miss_ok H gen a seed st hload] at h1
      injection h1 with h1
      subst h1
      have hload2 : load_persistent_cache
          (saveFs st.fs (H (cacheKeyInput a seed)) gen.1 gen.2)
          (H (cacheKeyInput a seed)) = some (gen.1, gen.2) :=
        load_saveFs st.fs (H (cacheKeyInput a seed)) gen.1 gen.2 hlen
      exact ⟨keypair_from_seed_hit H .ok gen a seed
          ⟨st.memCache, saveFs st.fs (H (cacheKeyInput a seed)) gen.1 gen.2⟩
          (gen.1, gen.2) hload2, hload2⟩
    | dirFail =>
      rw [keypair_from_seed_dirFail H gen a seed st hload] at h1
      exact Except.noConfusion h1
    | writeFail =>
      rw [keypair_from_seed_writeFail H gen a seed st hload] at h1
      exact Except.noConfusion h1

/-- State reached by a first derivation for dilithium2 on seed [0] from the
empty state, used to witness C1. -/
def rDemo : DeriveResult :=
  ⟨([5], [6]),
   ⟨stEmpty.memCache, saveFs stEmpty.fs (cacheKeyInput .dilithium2 [0]) [5] [6]⟩,
   true⟩

/-- Witness for C1: a concrete first call from the empty state, then the
second call replays its record without generating. -/
theorem derive_stable_cache_witness :
    keypair_from_seed id .ok ([5], [6]) .dilithium2 [0] rDemo.st
      = .ok ⟨rDemo.keys, rDemo.st, false⟩
    ∧ load_persistent_cache rDemo.st.fs (id (cacheKeyInput .dilithium2 [0]))
      = some rDemo.keys :=
  derive_stable_cache id .ok ([5], [6]) .dilithium2 [0] stEmpty rDemo
    (by decide) rfl

/-- C3: a cache file whose length is below 4, or below 4 plus the pk length
declared in its 4-byte little-endian prefix, makes the lookup return `None`
(absent, not a malformed record or an error), and a subsequent derivation for
that cache key regenerates a keypair and overwrites the file with a
well-formed record (one that parses back to the stored keypair). -/
theorem truncated_lookup_regenerates (H : List Nat → List Nat)
    (gen : List Nat × List Nat) (a : Alg) (seed : List Nat) (st : CryptoState)
    (data : List Nat)
    (hfile : st.fs.files (H (cacheKeyInput a seed)) = some data)
    (htrunc : data.length < 4 ∨ data.length < 4 + decodeU32LE data)
    (hlen : gen.1.length < 4294967296) :
    load_persistent_cache st.fs (H (cacheKeyInput a seed)) = none
    ∧ keypair_from_seed H .ok gen a seed st
        = .ok ⟨gen, ⟨st.memCache, saveFs st.fs (H (cacheKeyInput a seed)) gen.1 gen.2⟩,
               true⟩
    ∧ (saveFs st.fs (H (cacheKeyInput a seed)) gen.1 gen.2).files
        (H (cacheKeyInput a seed)) = some (encodeRecord gen.1 gen.2)
    ∧ parseRecord (encodeRecord gen.1 gen.2) = some (gen.1, gen.2) := by
  have hparse : parseRecord data = none := by
    unfold parseRecord
    rcases htrunc with h | h
    · rw [if_neg (by omega)]
    · by_cases h4 : 4 ≤ data.length
      · rw [if_pos h4, if_neg (by omega)]
      · rw [if_neg h4]
  have hmiss : load_persistent_cache st.fs (H (cacheKeyInput a seed)) = none := by
    unfold load_persistent_cache
    by_cases hd : st.fs.dirExists = true
    · simp [hd, hfile, hparse]
    · simp [hd]
  refine ⟨hmiss, keypair_from_seed_miss_ok H gen a seed st hmiss, ?_, ?_⟩
  · simp [saveFs]
  · exact parseRecord_encodeRecord gen.1 gen.2 hlen

/-- State with a single truncated cache file (4 bytes declaring a 1-byte pk
with no pk data), used to witness C3. -/
def stTruncDemo : CryptoState :=
  ⟨fun _ => none,
   ⟨true, fun k => if k = cacheKeyInput .dilithium2 [1] then some [1, 0, 0, 0]
                   else none⟩⟩

/-- Witness for C3 on a concrete 4-byte file declaring a 1-byte public key. -/
theorem truncated_lookup_regenerates_witness :
    load_persistent_cache stTruncDemo.fs (id (cacheKeyInput .dilithium2 [1])) = none
    ∧ keypair_from_seed id .ok ([8], [9]) .dilithium2 [1] stTruncDemo
        = .ok ⟨([8], [9]),
               ⟨stTruncDemo.memCache,
                saveFs stTruncDemo.fs (id (cacheKeyInput .dilithium2 [1])) [8] [9]⟩,
               true⟩
    ∧ (saveFs stTruncDemo.fs (id (cacheKeyInput .dilithium2 [1])) [8] [9]).files
        (id (cacheKeyInput .dilithium2 [1])) = some (encodeRecord [8] [9])
    ∧ parseRecord (encodeRecord [8] [9]) = some ([8], [9]) :=
  truncated_lookup_regenerates id ([8], [9]) .dilithium2 [1] stTruncDemo
    [1, 0, 0, 0] rfl (by decide) (by decide)

/-- C7: when the persistent-cache store fails (directory creation or file
write) on a cache miss, the derivation propagates the critical-cache-failure
error to the caller and does not return the freshly generated keypair. -/
theorem store_failure_fatal (H : List Nat → List Nat) (io : IoOutcome)
    (gen : List Nat × List Nat) (a : Alg) (seed : List Nat) (st : CryptoState)
    (hmiss : load_persistent_cache st.fs (H (cacheKeyInput a seed)) = none)
    (hio : io ≠ .ok) :
    ∃ e, keypair_from_seed H io gen a seed st
      = .error (.term ("Critical cache failure: " ++ e)) := by
  cases io with
  | ok => exact absurd rfl hio
  | dirFail => exact ⟨_, keypair_from_seed_dirFail H gen a seed st hmiss⟩
  | writeFail => exact ⟨_, keypair_from_seed_writeFail H gen a seed st hmiss⟩

/-- Witness for C7: directory creation fails on an empty cache. -/
theorem store_failure_fatal_witness :
    ∃ e, keypair_from_seed id .dirFail ([5], [6]) .falcon512 [0] stEmpty
      = .error (.term ("Critical cache failure: " ++ e)) :=
  store_failure_fatal id .dirFail ([5], [6]) .falcon512 [0] stEmpty rfl
    (by decide)

/-- State whose in-memory map holds a keypair for the dilithium2/[0] cache
key while the cache file holds a different record; used to refute C8. -/
def stMemDemo : CryptoState :=
  ⟨fun k => if k = cacheKeyInput .dilithium2 [0] then some ([1], [2]) else none,
   ⟨true, fun k => if k = cacheKeyInput .dilithium2 [0] then some (encodeRecord [3] [4])
                   else none⟩⟩

/-- C8 counterexample: the in-process map (`DETERMINISTIC_CACHE`) holds
([1], [2]) for the dilithium2/[0] cache key, yet the derivation reads the
cache file and returns its record ([3], [4]) instead — the map is never
consulted. -/
theorem memcache_not_consulted :
    stMemDemo.memCache (cacheKeyInput .dilithium2 [0]) = some ([1], [2])
    ∧ (keypair_from_seed id .ok ([9], [9]) .dilithium2 [0] stMemDemo).map
        (fun r => r.keys) = .ok ([3], [4])
    ∧ (([3], [4]) : List Nat × List Nat) ≠ ([1], [2]) := by
  refine ⟨rfl, rfl, by decide⟩

/-- C8 (amended): lib.rs declares the in-process map `DETERMINISTIC_CACHE`
but the derivation never consults (or updates) it: the outcome of
`keypair_from_seed` — returned keys, resulting filesystem, and whether the
generator ran — is independent of the in-process map's contents, and every
lookup goes to the cache file. -/
theorem derive_ignores_memcache (H : List Nat → List Nat) (io : IoOutcome)
    (gen : List Nat × List Nat) (a : Alg) (seed : List Nat)
    (mem mem' : List Nat → Option (List Nat × List Nat)) (fs : CacheFs) :
    (keypair_from_seed H io gen a seed ⟨mem, fs⟩).map
        (fun r => (r.keys, r.st.fs, r.generated))
      = (keypair_from_seed H io gen a seed ⟨mem', fs⟩).map
        (fun r => (r.keys, r.st.fs, r.generated)) := by
  cases hload : load_persistent_cache fs (H (cacheKeyInput a seed)) with
  | some p =>
    rw [keypair_from_seed_hit H io gen a seed ⟨mem, fs⟩ p hload,
      keypair_from_seed_hit H io gen a seed ⟨mem', fs⟩ p hload]
    rfl
  | none =>
    cases io with
    | ok =>
      rw [keypair_from_seed_miss_ok H gen a seed ⟨mem, fs⟩ hload,
        keypair_from_seed_miss_ok H gen a seed ⟨mem', fs⟩ hload]
      rfl
    | dirFail =>
      rw [keypair_from_seed_dirFail H gen a seed ⟨mem, fs⟩ hload,
        keypair_from_seed_dirFail H gen a seed ⟨mem', fs⟩ hload]
    | writeFail =>
      rw [keypair_from_seed_writeFail H gen a seed ⟨mem, fs⟩ hload,
        keypair_from_seed_writeFail H gen a seed ⟨mem', fs⟩ hload]

/-- C9: on a cache hit the derivation returns the stored record's bytes
verbatim with no re-validation: whatever public-key and secret-key byte
strings a well-formed cache file parses to are returned unchanged (no
algorithm-specific length check), the state is untouched, and the generator
does not run. -/
theorem cache_hit_verbatim (H : List Nat → List Nat) (io : IoOutcome)
    (gen : List Nat × List Nat) (a : Alg) (seed : List Nat) (st : CryptoState)
    (data p s : List Nat)
    (hdir : st.fs.dirExists = true)
    (hfile : st.fs.files (H (cacheKeyInput a seed)) = some data)
    (hparse : parseRecord data = some (p, s)) :
    keypair_from_seed H io gen a seed st = .ok ⟨(p, s), st, false⟩ := by
  apply keypair_from_seed_hit
  simp [load_persistent_cache, hdir, hfile, hparse]

/-- State with a well-formed cache file holding a 1-byte public key and a
1-byte secret key — lengths matching no supported algorithm; used to witness
C9. -/
def stOddDemo : CryptoState :=
  ⟨fun _ => none,
   ⟨true, fun k => if k = cacheKeyInput .sphincsplus [2] then some [1, 0, 0, 0, 9, 7]
                   else none⟩⟩

/-- Witness for C9: the 1-byte keys stored in the file come back verbatim. -/
theorem cache_hit_verbatim_witness :
    keypair_from_seed id .ok ([5], [6]) .sphincsplus [2] stOddDemo
      = .ok ⟨([9], [7]), stOddDemo, false⟩ :=
  cache_hit_verbatim id .ok ([5], [6]) .sphincsplus [2] stOddDemo
    [1, 0, 0, 0, 9, 7] [9] [7] rfl rfl (by decide)

/-- C10: the cache-file parser is total over arbitrary contents — the
bounds-checked parser (`none` = panic) never panics and agrees with
`parseRecord` on every input — and a file of exactly 4 plus the declared
public-key length parses successfully to a record whose secret key is the
empty byte string. -/
theorem parse_total_guarded (data : List Nat) :
    parseRecordChecked data = some (parseRecord data)
    ∧ (data.length = 4 + decodeU32LE data →
        parseRecord data = some (data.drop 4, [])) := by
  constructor
  · by_cases h4 : 4 ≤ data.length
    · rcases data with _ | ⟨b0, _ | ⟨b1, _ | ⟨b2, _ | ⟨b3, rest⟩⟩⟩⟩
      · simp at h4
      · simp at h4
      · simp at h4
      · simp at h4
      · unfold parseRecordChecked parseRecord
        rw [if_pos h4, if_pos h4]
        simp only [show (b0 :: b1 :: b2 :: b3 :: rest).get? 0 = some b0 from rfl,
          show (b0 :: b1 :: b2 :: b3 :: rest).get? 1 = some b1 from rfl,
          show (b0 :: b1 :: b2 :: b3 :: rest).get? 2 = some b2 from rfl,
          show (b0 :: b1 :: b2 :: b3 :: rest).get? 3 = some b3 from rfl,
          decodeU32LE]
        by_cases hg : 4 + (b0 + 256 * b1 + 65536 * b2 + 16777216 * b3)
            ≤ (b0 :: b1 :: b2 :: b3 :: rest).length
        · rw [if_pos hg, if_pos hg]
          unfold sliceRange sliceFrom
          rw [if_pos ⟨by omega, hg⟩, if_pos hg]
          have hsub : 4 + (b0 + 256 * b1 + 65536 * b2 + 16777216 * b3) - 4
              = b0 + 256 * b1 + 65536 * b2 + 16777216 * b3 := by omega
          rw [hsub]
        · rw [if_neg hg, if_neg hg]
    · unfold parseRecordChecked parseRecord
      rw [if_neg h4, if_neg h4]
  · intro hE
    have h4 : 4 ≤ data.length := by omega
    unfold parseRecord
    rw [if_pos h4, if_pos (by omega)]
    have htk : (data.drop 4).take (decodeU32LE data) = data.drop 4 :=
      List.take_of_length_le (by simp; omega)
    have hdr : data.drop (4 + decodeU32LE data) = [] :=
      List.drop_eq_nil_of_le (by omega)
    rw [htk, hdr]

/-- Witness for C10 on a 5-byte file declaring a 1-byte public key. -/
theorem parse_total_guarded_witness :
    parseRecordChecked [1, 0, 0, 0, 7] = some (parseRecord [1, 0, 0, 0, 7])
    ∧ parseRecord [1, 0, 0, 0, 7] = some ([7], []) :=
  ⟨(parse_total_guarded [1, 0, 0, 0, 7]).1,
   (parse_total_guarded [1, 0, 0, 0, 7]).2 (by decide)⟩

end BastilleCrypto
